import Mathlib

/-!
# Verification of the `paseto_maker` claim-set and token pipeline

Shallow embedding of the repository's core (src/claims/mod.rs,
src/claims/reserved.rs, src/errors.rs, src/maker/mod.rs, src/version/v4.rs).

* `serde_json::Value` is embedded as the inductive `Value` (numbers as `Int`;
  only the string/null/shape distinctions matter to the code under scrutiny).
* `Claims` (a `BTreeMap<Arc<str>, Value>`) is embedded as a list of
  (key, value) pairs kept sorted by key; `insertClaim` is `BTreeMap::insert`
  on that representation and `lookupClaim` is `BTreeMap::get`.
* The external collaborators (the `rusty_paseto` token engine, the
  `ed25519_dalek` key primitive, `chrono`/RFC3339 timestamp parsing) are
  modelled from the spec's §6 collaborator contracts; each such definition
  carries a doc comment saying so.
-/

namespace PasetoMaker

/-- Embedding of `serde_json::Value`: the dynamically-typed structured claim
value (string, number, boolean, null, nested array/object). Numbers are
modelled as integers; the code under verification only distinguishes
string / null / everything-else shapes. -/
inductive Value where
  | null : Value
  | bool (b : Bool) : Value
  | num (n : Int) : Value
  | str (s : String) : Value
  | arr (elems : List Value) : Value
  | obj (fields : List (String × Value)) : Value

/-- `Value::is_null`. -/
def Value.is_null : Value → Bool
  | .null => true
  | _ => false

/-- `Value::as_str`. -/
def Value.as_str : Value → Option String
  | .str s => some s
  | _ => none

namespace reserved

/-- `reserved::ISSUER` (src/claims/reserved.rs). -/
def ISSUER : String := "iss"

/-- `reserved::SUBJECT`. -/
def SUBJECT : String := "sub"

/-- `reserved::AUDIENCE`. -/
def AUDIENCE : String := "aud"

/-- `reserved::EXPIRATION`. -/
def EXPIRATION : String := "exp"

/-- `reserved::NOT_BEFORE`. -/
def NOT_BEFORE : String := "nbf"

/-- `reserved::ISSUED_AT`. -/
def ISSUED_AT : String := "iat"

/-- `reserved::TOKEN_IDENTIFIER`. -/
def TOKEN_IDENTIFIER : String := "jti"

end reserved

/-- The seven reserved claim names (src/claims/reserved.rs). -/
def reservedNames : List String :=
  [reserved.ISSUER, reserved.SUBJECT, reserved.AUDIENCE, reserved.EXPIRATION,
   reserved.NOT_BEFORE, reserved.ISSUED_AT, reserved.TOKEN_IDENTIFIER]

/-- `BTreeMap::insert` on the sorted association-list representation of
`BTreeMap<Arc<str>, Value>`: insert before the first strictly larger key,
overwrite an equal key. (Rust's `Arc<str>` ordering is byte-wise UTF-8 order,
which coincides with the codepoint-lexicographic order used by `String`
comparison here.) -/
def insertClaim (key : String) (value : Value) :
    List (String × Value) → List (String × Value)
  | [] => [(key, value)]
  | (k, v) :: rest =>
    if key < k then (key, value) :: (k, v) :: rest
    else if key = k then (key, value) :: rest
    else (k, v) :: insertClaim key value rest

/-- `BTreeMap::get` on the association-list representation. -/
def lookupClaim (key : String) : List (String × Value) → Option Value
  | [] => none
  | (k, v) :: rest => if k = key then some v else lookupClaim key rest

/-- `Claims` (src/claims/mod.rs): `claims: BTreeMap<Arc<str>, Value>`,
represented as a key-sorted association list. -/
structure Claims where
  claims : List (String × Value)

/-- `ClaimError` (src/errors.rs). The payload of `SerializationError` is the
display text of the underlying `serde_json::Error`; `PasetoError` and
`InvalidClaim` wrap the engine's errors. -/
inductive PasetoClaimError where
  | RFC3339Date (value : String) : PasetoClaimError
deriving DecidableEq, Repr

inductive ClaimError where
  | InvalidValue : ClaimError
  | SerializationError (msg : String) : ClaimError
  | PasetoError (msg : String) : ClaimError
  | InvalidClaim (err : PasetoClaimError) : ClaimError
deriving DecidableEq, Repr

/-- `TokenError` (src/errors.rs). -/
inductive TokenError where
  | InvalidClaim (msg : String) : TokenError
  | Expired : TokenError
  | Invalid : TokenError
  | Validation : TokenError
  | Format : TokenError
  | ClaimError (err : ClaimError) : TokenError
  | TokenCreationFailed (msg : String) : TokenError
deriving DecidableEq, Repr

/-- `MakerError` (src/errors.rs). -/
inductive MakerError where
  | InvalidKey (reason : String) : MakerError
deriving DecidableEq, Repr

namespace Claims

/-- `Claims::new` / `Claims::default`. -/
def new : Claims := ⟨[]⟩

/-- `Claims::iter`: the (key, value) pairs in `BTreeMap` order, i.e. sorted
by claim name. -/
def iter (c : Claims) : List (String × Value) := c.claims

/-- `Claims::with_subject` (stores `subject.as_ref().into()`, a JSON string). -/
def with_subject (c : Claims) (subject : String) : Claims :=
  ⟨insertClaim reserved.SUBJECT (.str subject) c.claims⟩

/-- `Claims::with_issuer`. -/
def with_issuer (c : Claims) (issuer : String) : Claims :=
  ⟨insertClaim reserved.ISSUER (.str issuer) c.claims⟩

/-- `Claims::with_audience`. -/
def with_audience (c : Claims) (audience : String) : Claims :=
  ⟨insertClaim reserved.AUDIENCE (.str audience) c.claims⟩

/-- `Claims::with_expiration`. -/
def with_expiration (c : Claims) (expiration : String) : Claims :=
  ⟨insertClaim reserved.EXPIRATION (.str expiration) c.claims⟩

/-- `Claims::with_not_before`. -/
def with_not_before (c : Claims) (not_before : String) : Claims :=
  ⟨insertClaim reserved.NOT_BEFORE (.str not_before) c.claims⟩

/-- `Claims::with_issued_at`. -/
def with_issued_at (c : Claims) (issued_at : String) : Claims :=
  ⟨insertClaim reserved.ISSUED_AT (.str issued_at) c.claims⟩

/-- `Claims::with_token_identifier`. -/
def with_token_identifier (c : Claims) (token_identifier : String) : Claims :=
  ⟨insertClaim reserved.TOKEN_IDENTIFIER (.str token_identifier) c.claims⟩

/-- `Claims::set_claim`. The caller's `T: Serialize` value enters the
function only through `serde_json::to_value(value)`, so the embedding takes
that serialization outcome (`Except` error = the `serde_json::Error` text,
propagated by `?` into `ClaimError::SerializationError`). A null result is
rejected with `ClaimError::InvalidValue` before any mutation; otherwise the
value is inserted (overwriting any previous binding). -/
def set_claim (c : Claims) (key : String) (serialized : Except String Value) :
    Except ClaimError Claims :=
  match serialized with
  | .error e => .error (.SerializationError e)
  | .ok value =>
    if value.is_null then .error .InvalidValue
    else .ok ⟨insertClaim key value c.claims⟩

/-- `Claims::get_claim`. The target type `T: DeserializeOwned` enters only
through `serde_json::from_value(value.clone()).ok()`, embedded as the
deserializer `des`; a missing key and a failed deserialization both yield
`none`. -/
def get_claim {α : Type} (c : Claims) (key : String) (des : Value → Option α) :
    Option α :=
  (lookupClaim key c.claims).bind des

/-- `impl From<Value> for Claims`: an object's pairs are collected into the
map (a `serde_json::Map` is itself a `BTreeMap`, so `collect` re-inserts its
pairs); any non-object payload yields the empty claim set. -/
def fromValue : Value → Claims
  | .obj fields => ⟨fields.foldl (fun acc kv => insertClaim kv.1 kv.2 acc) []⟩
  | _ => ⟨[]⟩

end Claims

/-! ## Timestamp parsing (external collaborator model)

The repository validates `exp` / `nbf` / `iat` strings through the engine's
`TryFrom<&str>` claims and reads them back through `chrono`'s
`DateTime<Utc>` deserializer; both are external crates. Modelled from the
spec (§3, §4.2): "value MUST be a string parseable as an RFC3339 timestamp".
-/

/-- Parsed RFC3339 timestamp fields (the embedding of the external
`DateTime` type: date, time, optional fraction digits, numeric offset). -/
structure Timestamp where
  year : Nat
  month : Nat
  day : Nat
  hour : Nat
  minute : Nat
  second : Nat
  frac : List Nat
  offNeg : Bool
  offHour : Nat
  offMinute : Nat
deriving DecidableEq, Repr

/-- Read exactly `n` decimal digits, returning their value and the rest. -/
def readDigits : Nat → Nat → List Char → Option (Nat × List Char)
  | 0, acc, cs => some (acc, cs)
  | n + 1, acc, c :: cs =>
    if c.isDigit then readDigits n (acc * 10 + (c.toNat - 48)) cs else none
  | _ + 1, _, [] => none

/-- Require one specific character. -/
def readChar (expected : Char) : List Char → Option (List Char)
  | c :: cs => if c = expected then some cs else none
  | [] => none

/-- Optional fractional-seconds part: a dot followed by one or more digits. -/
def readFrac : List Char → Option (List Nat × List Char)
  | '.' :: cs =>
    let ds := cs.takeWhile Char.isDigit
    if ds.isEmpty then none
    else some (ds.map (fun c => c.toNat - 48), cs.dropWhile Char.isDigit)
  | cs => some ([], cs)

/-- Numeric or Zulu offset: Z, z, or a signed HH:MM pair. -/
def readOffset : List Char → Option ((Bool × Nat × Nat) × List Char)
  | 'Z' :: cs => some ((false, 0, 0), cs)
  | 'z' :: cs => some ((false, 0, 0), cs)
  | '+' :: cs => do
    let (h, cs) ← readDigits 2 0 cs
    let cs ← readChar ':' cs
    let (m, cs) ← readDigits 2 0 cs
    pure ((false, h, m), cs)
  | '-' :: cs => do
    let (h, cs) ← readDigits 2 0 cs
    let cs ← readChar ':' cs
    let (m, cs) ← readDigits 2 0 cs
    pure ((true, h, m), cs)
  | _ => none

/-- Leap-year rule of the proleptic Gregorian calendar. -/
def isLeapYear (y : Nat) : Bool :=
  (y % 4 == 0 && y % 100 != 0) || y % 400 == 0

/-- Days in a month, honouring leap years. -/
def daysInMonth (y m : Nat) : Nat :=
  if m = 2 then (if isLeapYear y then 29 else 28)
  else if m = 4 ∨ m = 6 ∨ m = 9 ∨ m = 11 then 30
  else 31

/-- Modelled from the spec (§3, §4.2): the external RFC3339 timestamp parse
used both by the engine's timestamp claims and by the `chrono` deserializer.
Grammar: `YYYY-MM-DDTHH:MM:SS[.fff](Z|±HH:MM)` with `T`/`t` accepted, field
ranges validated (calendar day, hour ≤ 23, minute ≤ 59, second ≤ 60 for leap
seconds, offset within ±23:59), and no trailing input. -/
def parseRFC3339 (s : String) : Option Timestamp := do
  let cs := s.toList
  let (y, cs) ← readDigits 4 0 cs
  let cs ← readChar '-' cs
  let (mo, cs) ← readDigits 2 0 cs
  let cs ← readChar '-' cs
  let (d, cs) ← readDigits 2 0 cs
  let cs ← match cs with
    | 'T' :: rest => some rest
    | 't' :: rest => some rest
    | _ => none
  let (h, cs) ← readDigits 2 0 cs
  let cs ← readChar ':' cs
  let (mi, cs) ← readDigits 2 0 cs
  let cs ← readChar ':' cs
  let (sec, cs) ← readDigits 2 0 cs
  let (fr, cs) ← readFrac cs
  let ((offNeg, offH, offM), cs) ← readOffset cs
  if cs.isEmpty ∧ 1 ≤ mo ∧ mo ≤ 12 ∧ 1 ≤ d ∧ d ≤ daysInMonth y mo ∧
      h ≤ 23 ∧ mi ≤ 59 ∧ sec ≤ 60 ∧ offH ≤ 23 ∧ offM ≤ 59 then
    some ⟨y, mo, d, h, mi, sec, fr, offNeg, offH, offM⟩
  else
    none

/-! ## Deserializers

`serde_json::from_value::<T>` for the concrete `T`s the repository uses:
`String` and `bool` succeed exactly on the matching JSON shape, `Value`
always succeeds, and `DateTime<Utc>` (chrono) deserializes from an RFC3339
string. -/

/-- `serde_json::from_value::<String>`. -/
def deserializeString : Value → Option String
  | .str s => some s
  | _ => none

/-- `serde_json::from_value::<bool>`. -/
def deserializeBool : Value → Option Bool
  | .bool b => some b
  | _ => none

/-- `serde_json::from_value::<Value>` (always succeeds with the same value). -/
def deserializeValue : Value → Option Value := some

/-- Modelled from the spec (§3): `serde_json::from_value::<DateTime<Utc>>`,
chrono's deserialization of a timestamp from an RFC3339 string. -/
def deserializeDateTime (v : Value) : Option Timestamp :=
  v.as_str.bind parseRFC3339

namespace Claims

/-- `Claims::get_subject`. -/
def get_subject (c : Claims) : Option String :=
  c.get_claim reserved.SUBJECT deserializeString

/-- `Claims::get_issuer`. -/
def get_issuer (c : Claims) : Option String :=
  c.get_claim reserved.ISSUER deserializeString

/-- `Claims::get_audience`. -/
def get_audience (c : Claims) : Option String :=
  c.get_claim reserved.AUDIENCE deserializeString

/-- `Claims::get_expiration`. -/
def get_expiration (c : Claims) : Option Timestamp :=
  c.get_claim reserved.EXPIRATION deserializeDateTime

/-- `Claims::get_not_before`. -/
def get_not_before (c : Claims) : Option Timestamp :=
  c.get_claim reserved.NOT_BEFORE deserializeDateTime

/-- `Claims::get_issued_at`. -/
def get_issued_at (c : Claims) : Option Timestamp :=
  c.get_claim reserved.ISSUED_AT deserializeDateTime

/-- `Claims::get_token_identifier`. -/
def get_token_identifier (c : Claims) : Option String :=
  c.get_claim reserved.TOKEN_IDENTIFIER deserializeString

end Claims

/-! ## Key material and the Ed25519 primitive (external collaborator model)

Modelled from the spec (§6): private key material is a 64-byte array, the
concatenation of a 32-byte seed and the derived 32-byte public key; the
primitive offers `keypair_from_bytes` (fails unless the embedded public key
matches the one derived from the seed) and seeded keypair generation. The
32-byte values are embedded as `Nat`s and derivation as an opaque
deterministic function of the seed — only determinism is relied upon. -/

/-- Modelled from the spec (§6): Ed25519 public-key derivation from a seed,
an opaque deterministic function. -/
def derivePub (seed : Nat) : Nat := 2 * seed + 1

/-- The 64-byte keypair encoding: seed (first 32 bytes) and the embedded
public key (last 32 bytes). -/
structure KeypairBytes where
  seed : Nat
  pubPart : Nat
deriving DecidableEq, Repr

/-- Modelled from the spec (§6): `SigningKey::from_keypair_bytes`, which
fails unless the embedded public half matches the seed's derived public key. -/
def from_keypair_bytes (bytes : KeypairBytes) : Except String KeypairBytes :=
  if derivePub bytes.seed = bytes.pubPart then .ok bytes
  else .error "signature error: Verification equation was not satisfied"

/-- `Maker<V4, Public>` (src/maker/mod.rs): the private keypair bytes, the
cached public key, its byte form, and the fixed version/purpose tags. -/
structure Maker where
  private_key : KeypairBytes
  public_key : Nat
  public_key_bytes : Nat
  version : String
  purpose : String
deriving DecidableEq, Repr

/-- Modelled from the spec: the `purpose::Public` tag module is not among the
provided sources; per §3 the Maker stores a fixed purpose tag selected at the
type level. -/
def publicPurposeName : String := "public"

namespace Maker

/-- `Maker::new` (src/maker/mod.rs lines 58–71): run the primitive's
keypair-from-bytes check (wrapping its failure text in
`MakerError::InvalidKey`), derive and cache the public key, and store the
`V4::NAME` / `Public::NAME` tags. -/
def new (private_key : KeypairBytes) : Except MakerError Maker :=
  match from_keypair_bytes private_key with
  | .error e => .error (.InvalidKey e)
  | .ok sk =>
    let pk := derivePub sk.seed
    .ok { private_key := ⟨sk.seed, pk⟩, public_key := pk, public_key_bytes := pk,
          version := "v4", purpose := publicPurposeName }

/-- `Maker::new_keypair` (lines 74–79): generate a signing key from the
secure random source — embedded as the `seed` argument — and return
(`to_keypair_bytes`, public key bytes). -/
def new_keypair (seed : Nat) : KeypairBytes × Nat :=
  (⟨seed, derivePub seed⟩, derivePub seed)

/-- `Maker::public_key_as_bytes` (lines 90–92). -/
def public_key_as_bytes (m : Maker) : Nat := m.public_key_bytes

end Maker

/-! ## The token engine (external collaborator model)

Modelled from the spec (§6): the engine signs an ordered set of named claims
with the private key into a token, and parses a presented token against a
public key, accepting exactly a well-formed token signed by the matching key
and returning its payload as a structured (object) value. Time-bound
validity checking lives inside the engine (§4.2) and is outside the
embedding: the model covers the engine's accept/reject decision on
signature and structure. -/

/-- A presented token: either a well-formed token carrying its payload and
the public key of its signer, or a malformed string. -/
inductive Token where
  | signed (payload : List (String × Value)) (key : Nat) : Token
  | malformed (desc : String) : Token

/-- Modelled from the spec (§6): `sign(payload, private_key) -> token`. -/
def engineSign (payload : List (String × Value)) (privKey : KeypairBytes) :
    Token :=
  .signed payload (derivePub privKey.seed)

/-- Modelled from the spec (§6): `parse_and_verify(token, public_key)`,
returning the verified payload as an object value, or the engine's error
text. -/
def engineParse (t : Token) (pubKey : Nat) : Except String Value :=
  match t with
  | .malformed desc => .error desc
  | .signed payload key =>
    if key = pubKey then .ok (.obj payload)
    else .error "decryption error: the signature was invalid"

/-! ## The issue and verify paths (src/maker/mod.rs) -/

/-- One iteration of the claim loop in `Maker::create_token` (lines
116–212): reserved names are shape-checked (strings for issuer / audience /
subject / token identifier; RFC3339-parseable strings for issued-at /
not-before / expiration, where the engine's `TryFrom` claims store the given
string unchanged), and any other name becomes a `CustomClaim` — whose
`try_from` rejects only reserved names, which cannot reach that arm, so it
contributes the pair unchanged. -/
def processClaim (key : String) (value : Value) :
    Except TokenError (String × Value) :=
  if key = reserved.ISSUER then
    match value.as_str with
    | some _ => .ok (key, value)
    | none => .error (.InvalidClaim "Invalid issuer claim")
  else if key = reserved.AUDIENCE then
    match value.as_str with
    | some _ => .ok (key, value)
    | none => .error (.InvalidClaim "Invalid audience claim")
  else if key = reserved.SUBJECT then
    match value.as_str with
    | some _ => .ok (key, value)
    | none => .error (.InvalidClaim "Invalid subject claim")
  else if key = reserved.ISSUED_AT then
    match value.as_str with
    | some s =>
      match parseRFC3339 s with
      | some _ => .ok (key, value)
      | none => .error (.ClaimError (.InvalidClaim (.RFC3339Date s)))
    | none => .error (.InvalidClaim "Invalid issued at claim")
  else if key = reserved.NOT_BEFORE then
    match value.as_str with
    | some s =>
      match parseRFC3339 s with
      | some _ => .ok (key, value)
      | none => .error (.ClaimError (.InvalidClaim (.RFC3339Date s)))
    | none => .error (.InvalidClaim "Invalid not before claim")
  else if key = reserved.EXPIRATION then
    match value.as_str with
    | some s =>
      match parseRFC3339 s with
      | some _ => .ok (key, value)
      | none => .error (.ClaimError (.InvalidClaim (.RFC3339Date s)))
    | none => .error (.InvalidClaim "Invalid expiration claim")
  else if key = reserved.TOKEN_IDENTIFIER then
    match value.as_str with
    | some _ => .ok (key, value)
    | none => .error (.InvalidClaim "Invalid token identifier claim")
  else
    .ok (key, value)

/-- The claim loop of `Maker::create_token`: process the iterated pairs in
order, short-circuiting at the first error; on success the builder holds the
processed pairs in the same (sorted) order. -/
def buildPayload : List (String × Value) → Except TokenError (List (String × Value))
  | [] => .ok []
  | (k, v) :: rest =>
    match processClaim k v with
    | .error e => .error e
    | .ok entry =>
      match buildPayload rest with
      | .error e => .error e
      | .ok entries => .ok (entry :: entries)

namespace Maker

/-- `Maker::create_token` (lines 113–217): validate the claims in iteration
order into the builder, then delegate to the engine to sign with the private
key. -/
def create_token (m : Maker) (claims : Claims) : Except TokenError Token :=
  match buildPayload claims.iter with
  | .error e => .error e
  | .ok entries => .ok (engineSign entries m.private_key)

/-- `Maker::verify_token` (lines 97–107): delegate parse+verify to the
engine against the stored public key, wrap any engine failure text as
`TokenError::TokenCreationFailed`, and convert the verified payload into a
`Claims` via `From<Value>`. -/
def verify_token (m : Maker) (token : Token) : Except TokenError Claims :=
  match engineParse token m.public_key with
  | .error e => .error (.TokenCreationFailed e)
  | .ok v => .ok (Claims.fromValue v)

end Maker

/-! ## Derived notions used to state the claims -/

/-- The `BTreeMap` representation invariant: keys strictly increasing. -/
def SortedKeys (l : List (String × Value)) : Prop :=
  l.Pairwise (fun a b => a.1 < b.1)

/-- Decidable form of "no stored value is JSON null". -/
def noNullClaims (c : Claims) : Bool :=
  c.claims.all (fun kv => !kv.2.is_null)

/-- Claim sets reachable through `Claims::new`, the `with_*` builder setters
and successful `set_claim` calls (the construction surface that excludes
`From<Value>`). -/
inductive BuiltClaims : Claims → Prop where
  | new : BuiltClaims Claims.new
  | with_subject (c : Claims) (s : String) :
      BuiltClaims c → BuiltClaims (c.with_subject s)
  | with_issuer (c : Claims) (s : String) :
      BuiltClaims c → BuiltClaims (c.with_issuer s)
  | with_audience (c : Claims) (s : String) :
      BuiltClaims c → BuiltClaims (c.with_audience s)
  | with_expiration (c : Claims) (s : String) :
      BuiltClaims c → BuiltClaims (c.with_expiration s)
  | with_not_before (c : Claims) (s : String) :
      BuiltClaims c → BuiltClaims (c.with_not_before s)
  | with_issued_at (c : Claims) (s : String) :
      BuiltClaims c → BuiltClaims (c.with_issued_at s)
  | with_token_identifier (c : Claims) (s : String) :
      BuiltClaims c → BuiltClaims (c.with_token_identifier s)
  | set_claim_ok (c : Claims) (key : String) (ser : Except String Value)
      (c' : Claims) : BuiltClaims c → c.set_claim key ser = .ok c' →
      BuiltClaims c'

/-- Building a claim set by inserting a list of (name, value) pairs in
order, starting from the empty map (the insertion-order experiment of the
iteration-determinism property). -/
def buildFrom (ps : List (String × Value)) : Claims :=
  ⟨ps.foldl (fun acc kv => insertClaim kv.1 kv.2 acc) []⟩

/-- The full reserved-claim builder chain, in the order of the crate's doc
example: subject, issuer, audience, expiration, not-before, issued-at,
token identifier. -/
def buildReserved (sub iss aud exp nbf iat jti : String) : Claims :=
  Claims.new |>.with_subject sub |>.with_issuer iss |>.with_audience aud
    |>.with_expiration exp |>.with_not_before nbf |>.with_issued_at iat
    |>.with_token_identifier jti

/-- Adding a list of custom claims through successive `set_claim` calls
(each given an already-serialized value), short-circuiting on failure. -/
def addCustoms (c : Claims) : List (String × Value) → Except ClaimError Claims
  | [] => .ok c
  | (k, v) :: rest =>
    match c.set_claim k (.ok v) with
    | .error e => .error e
    | .ok c' => addCustoms c' rest

/-- A value of the wrong shape for the given reserved claim: any non-string
value (for every reserved claim), or — for the three timestamp claims — a
string that does not parse as RFC3339. -/
def wrongShape (name : String) (v : Value) : Bool :=
  match v.as_str with
  | none => true
  | some s =>
    (name == reserved.EXPIRATION || name == reserved.NOT_BEFORE ||
      name == reserved.ISSUED_AT) && (parseRFC3339 s).isNone

/-! ## Lemmas about the sorted association-list map -/

theorem lookupClaim_insertClaim_self (k : String) (v : Value)
    (l : List (String × Value)) :
    lookupClaim k (insertClaim k v l) = some v := by
  induction l with
  | nil => simp [insertClaim, lookupClaim]
  | cons hd tl ih =>
    obtain ⟨k1, v1⟩ := hd
    by_cases h1 : k < k1
    · simp [insertClaim, h1, lookupClaim]
    · by_cases h2 : k = k1
      · simp [insertClaim, h1, h2, lookupClaim]
      · have h3 : k1 ≠ k := fun h => h2 h.symm
        simp [insertClaim, h1, h2, lookupClaim, h3, ih]

theorem lookupClaim_insertClaim_ne {k q : String} (h : q ≠ k) (v : Value)
    (l : List (String × Value)) :
    lookupClaim q (insertClaim k v l) = lookupClaim q l := by
  have h' : k ≠ q := h.symm
  induction l with
  | nil => simp [insertClaim, lookupClaim, h']
  | cons hd tl ih =>
    obtain ⟨k1, v1⟩ := hd
    by_cases h1 : k < k1
    · simp [insertClaim, h1, lookupClaim, h']
    · by_cases h2 : k = k1
      · subst h2
        simp [insertClaim, h1, lookupClaim, h']
      · simp [insertClaim, h1, h2, lookupClaim, ih]

theorem mem_insertClaim {x : String × Value} {k : String} {v : Value}
    {l : List (String × Value)} (h : x ∈ insertClaim k v l) :
    x = (k, v) ∨ x ∈ l := by
  induction l with
  | nil => simpa [insertClaim] using h
  | cons hd tl ih =>
    obtain ⟨k1, v1⟩ := hd
    by_cases h1 : k < k1
    · simp only [insertClaim, if_pos h1] at h
      rcases List.mem_cons.mp h with h' | h'
      · exact Or.inl h'
      · exact Or.inr h'
    · by_cases h2 : k = k1
      · simp only [insertClaim, if_neg h1, if_pos h2] at h
        rcases List.mem_cons.mp h with h' | h'
        · exact Or.inl h'
        · exact Or.inr (List.mem_cons_of_mem _ h')
      · simp only [insertClaim, if_neg h1, if_neg h2] at h
        rcases List.mem_cons.mp h with h' | h'
        · exact Or.inr (h' ▸ List.mem_cons_self _ _)
        · rcases ih h' with h'' | h''
          · exact Or.inl h''
          · exact Or.inr (List.mem_cons_of_mem _ h'')

theorem sortedKeys_insertClaim {k : String} {v : Value}
    {l : List (String × Value)} (h : SortedKeys l) :
    SortedKeys (insertClaim k v l) := by
  induction l with
  | nil => simp [insertClaim, SortedKeys]
  | cons hd tl ih =>
    obtain ⟨k1, v1⟩ := hd
    rw [SortedKeys, List.pairwise_cons] at h
    obtain ⟨hall, htl⟩ := h
    by_cases h1 : k < k1
    · rw [SortedKeys]
      simp only [insertClaim, if_pos h1]
      refine List.Pairwise.cons ?_ (List.Pairwise.cons hall htl)
      intro b hb
      rcases List.mem_cons.mp hb with rfl | hb'
      · exact h1
      · exact h1.trans (hall b hb')
    · by_cases h2 : k = k1
      · rw [SortedKeys]
        simp only [insertClaim, if_neg h1, if_pos h2]
        subst h2
        exact List.Pairwise.cons hall htl
      · rw [SortedKeys]
        simp only [insertClaim, if_neg h1, if_neg h2]
        refine List.Pairwise.cons ?_ (ih htl)
        intro b hb
        rcases mem_insertClaim hb with rfl | hb'
        · exact lt_of_le_of_ne (not_lt.mp h1) (fun hh => h2 hh.symm)
        · exact hall b hb'

theorem lookupClaim_eq_none_iff {q : String} {l : List (String × Value)} :
    lookupClaim q l = none ↔ q ∉ l.map Prod.fst := by
  induction l with
  | nil => simp [lookupClaim]
  | cons hd tl ih =>
    obtain ⟨k1, v1⟩ := hd
    by_cases h : k1 = q
    · subst h
      simp [lookupClaim]
    · have h' : q ≠ k1 := fun hh => h hh.symm
      rw [lookupClaim, if_neg h, ih]
      simp [List.mem_cons, h']

theorem lookupClaim_mem_keys {q : String} {v : Value}
    {l : List (String × Value)} (h : lookupClaim q l = some v) :
    q ∈ l.map Prod.fst := by
  induction l with
  | nil => simp [lookupClaim] at h
  | cons hd tl ih =>
    obtain ⟨k1, v1⟩ := hd
    by_cases h1 : k1 = q
    · subst h1
      simp
    · rw [lookupClaim, if_neg h1] at h
      simpa using Or.inr (ih h)

theorem lookupClaim_eq_some_iff {q : String} {v : Value}
    {l : List (String × Value)} (hnd : (l.map Prod.fst).Nodup) :
    lookupClaim q l = some v ↔ (q, v) ∈ l := by
  induction l with
  | nil => simp [lookupClaim]
  | cons hd tl ih =>
    obtain ⟨k1, v1⟩ := hd
    simp only [List.map_cons, List.nodup_cons] at hnd
    obtain ⟨hk1, hnd'⟩ := hnd
    by_cases h : k1 = q
    · subst h
      rw [lookupClaim, if_pos rfl]
      constructor
      · intro hv
        cases hv
        exact List.mem_cons_self _ _
      · intro hv
        rcases List.mem_cons.mp hv with heq | hmem
        · cases heq
          rfl
        · exact absurd (List.mem_map.mpr ⟨(k1, v), hmem, rfl⟩) hk1
    · rw [lookupClaim, if_neg h, ih hnd', List.mem_cons]
      constructor
      · intro hv
        exact Or.inr hv
      · intro hv
        rcases hv with heq | hmem
        · cases heq
          exact absurd rfl h
        · exact hmem

theorem sorted_lookup_ext :
    ∀ {l l' : List (String × Value)}, SortedKeys l → SortedKeys l' →
    (∀ q, lookupClaim q l = lookupClaim q l') → l = l' := by
  intro l
  induction l with
  | nil =>
    intro l' _ _ hq
    cases l' with
    | nil => rfl
    | cons hd tl =>
      have := hq hd.1
      rw [lookupClaim, lookupClaim, if_pos rfl] at this
      exact absurd this (by simp)
  | cons hd tl ih =>
    intro l' hs hs' hq
    cases l' with
    | nil =>
      have := hq hd.1
      rw [lookupClaim, lookupClaim, if_pos rfl] at this
      exact absurd this (by simp)
    | cons hd' tl' =>
      obtain ⟨k, v⟩ := hd
      obtain ⟨k', v'⟩ := hd'
      rw [SortedKeys, List.pairwise_cons] at hs hs'
      obtain ⟨hall, htl⟩ := hs
      obtain ⟨hall', htl'⟩ := hs'
      have hk : lookupClaim k ((k', v') :: tl') = some v := by
        rw [← hq k, lookupClaim, if_pos rfl]
      have hk' : lookupClaim k' ((k, v) :: tl) = some v' := by
        rw [hq k', lookupClaim, if_pos rfl]
      have hkk : k = k' := by
        by_cases h1 : k' = k
        · exact h1.symm
        · by_cases h2 : k = k'
          · exact h2
          · rw [lookupClaim, if_neg h1] at hk
            rw [lookupClaim, if_neg h2] at hk'
            have m1 := lookupClaim_mem_keys hk
            have m2 := lookupClaim_mem_keys hk'
            rcases List.mem_map.mp m1 with ⟨b, hb, hb1⟩
            rcases List.mem_map.mp m2 with ⟨b', hb', hb1'⟩
            have lt1 : k' < k := hb1 ▸ hall' b hb
            have lt2 : k < k' := hb1' ▸ hall b' hb'
            exact absurd (lt1.trans lt2) (lt_irrefl _)
      subst hkk
      have hv : v = v' := by
        rw [lookupClaim, if_pos rfl] at hk
        exact (Option.some.inj hk).symm
      subst hv
      have htq : ∀ q, lookupClaim q tl = lookupClaim q tl' := by
        intro q
        by_cases hqk : k = q
        · subst hqk
          rw [lookupClaim_eq_none_iff.mpr, lookupClaim_eq_none_iff.mpr]
          · intro hmem
            rcases List.mem_map.mp hmem with ⟨b, hb, hb1⟩
            exact absurd (hb1 ▸ hall' b hb) (lt_irrefl _)
          · intro hmem
            rcases List.mem_map.mp hmem with ⟨b, hb, hb1⟩
            exact absurd (hb1 ▸ hall b hb) (lt_irrefl _)
        · have := hq q
          rwa [lookupClaim, lookupClaim, if_neg hqk, if_neg hqk] at this
      rw [ih htl htl' htq]

theorem nodup_keys_of_sortedKeys {l : List (String × Value)}
    (h : SortedKeys l) : (l.map Prod.fst).Nodup := by
  rw [SortedKeys] at h
  have : (l.map Prod.fst).Pairwise (· < ·) := (List.pairwise_map).mpr h
  exact this.imp ne_of_lt

theorem sortedKeys_foldl {ps : List (String × Value)} :
    ∀ {acc : List (String × Value)}, SortedKeys acc →
    SortedKeys (ps.foldl (fun acc kv => insertClaim kv.1 kv.2 acc) acc) := by
  induction ps with
  | nil => intro acc h; exact h
  | cons hd tl ih =>
    intro acc h
    exact ih (sortedKeys_insertClaim h)

theorem lookupClaim_foldl {q : String} :
    ∀ (ps acc : List (String × Value)), (ps.map Prod.fst).Nodup →
    lookupClaim q (ps.foldl (fun acc kv => insertClaim kv.1 kv.2 acc) acc) =
      (lookupClaim q ps).elim (lookupClaim q acc) some := by
  intro ps
  induction ps with
  | nil => intro acc _; rfl
  | cons hd tl ih =>
    intro acc hnd
    obtain ⟨k0, v0⟩ := hd
    simp only [List.map_cons, List.nodup_cons] at hnd
    obtain ⟨hk0, hnd'⟩ := hnd
    rw [List.foldl_cons, ih _ hnd']
    by_cases hq : k0 = q
    · subst hq
      have hnone : lookupClaim k0 tl = none := by
        rw [lookupClaim_eq_none_iff]
        exact hk0
      rw [hnone, lookupClaim, if_pos rfl]
      exact lookupClaim_insertClaim_self _ _ _
    · rw [lookupClaim, if_neg hq,
        lookupClaim_insertClaim_ne (fun hh => hq hh.symm)]

theorem fromValue_obj_of_sorted {fields : List (String × Value)}
    (h : SortedKeys fields) : Claims.fromValue (.obj fields) = ⟨fields⟩ := by
  rw [Claims.fromValue]
  congr 1
  apply sorted_lookup_ext (sortedKeys_foldl (by exact List.Pairwise.nil)) h
  intro q
  rw [lookupClaim_foldl _ _ (nodup_keys_of_sortedKeys h)]
  cases hl : lookupClaim q fields with
  | none => rfl
  | some w => rfl

theorem lookupClaim_perm {ps qs : List (String × Value)}
    (hperm : ps.Perm qs) (hnd : (ps.map Prod.fst).Nodup) (q : String) :
    lookupClaim q ps = lookupClaim q qs := by
  have hnd' : (qs.map Prod.fst).Nodup := ((hperm.map Prod.fst).nodup_iff).mp hnd
  cases hl : lookupClaim q ps with
  | some w =>
    rw [lookupClaim_eq_some_iff hnd] at hl
    exact ((lookupClaim_eq_some_iff hnd').mpr (hperm.mem_iff.mp hl)).symm
  | none =>
    rw [lookupClaim_eq_none_iff] at hl
    refine (lookupClaim_eq_none_iff.mpr ?_).symm
    intro hmem
    exact hl (((hperm.map Prod.fst).mem_iff).mpr hmem)

/-! ## Lemmas about the issue-path claim validation -/

theorem processClaim_nonstring_iss {v : Value} (h : v.as_str = none) :
    processClaim reserved.ISSUER v = .error (.InvalidClaim "Invalid issuer claim") := by
  simp [processClaim, h]

theorem processClaim_nonstring_aud {v : Value} (h : v.as_str = none) :
    processClaim reserved.AUDIENCE v = .error (.InvalidClaim "Invalid audience claim") := by
  simp [processClaim, reserved.AUDIENCE, reserved.ISSUER, h]

theorem processClaim_nonstring_sub {v : Value} (h : v.as_str = none) :
    processClaim reserved.SUBJECT v = .error (.InvalidClaim "Invalid subject claim") := by
  simp [processClaim, reserved.SUBJECT, reserved.ISSUER, reserved.AUDIENCE, h]

theorem processClaim_nonstring_iat {v : Value} (h : v.as_str = none) :
    processClaim reserved.ISSUED_AT v = .error (.InvalidClaim "Invalid issued at claim") := by
  simp [processClaim, reserved.ISSUED_AT, reserved.ISSUER, reserved.AUDIENCE,
    reserved.SUBJECT, h]

theorem processClaim_nonstring_nbf {v : Value} (h : v.as_str = none) :
    processClaim reserved.NOT_BEFORE v = .error (.InvalidClaim "Invalid not before claim") := by
  simp [processClaim, reserved.NOT_BEFORE, reserved.ISSUER, reserved.AUDIENCE,
    reserved.SUBJECT, reserved.ISSUED_AT, h]

theorem processClaim_nonstring_exp {v : Value} (h : v.as_str = none) :
    processClaim reserved.EXPIRATION v = .error (.InvalidClaim "Invalid expiration claim") := by
  simp [processClaim, reserved.EXPIRATION, reserved.ISSUER, reserved.AUDIENCE,
    reserved.SUBJECT, reserved.ISSUED_AT, reserved.NOT_BEFORE, h]

theorem processClaim_nonstring_jti {v : Value} (h : v.as_str = none) :
    processClaim reserved.TOKEN_IDENTIFIER v = .error (.InvalidClaim "Invalid token identifier claim") := by
  simp [processClaim, reserved.TOKEN_IDENTIFIER, reserved.ISSUER, reserved.AUDIENCE,
    reserved.SUBJECT, reserved.ISSUED_AT, reserved.NOT_BEFORE, reserved.EXPIRATION, h]

theorem processClaim_badts_iat {s : String} (h : parseRFC3339 s = none) :
    processClaim reserved.ISSUED_AT (.str s) =
      .error (.ClaimError (.InvalidClaim (.RFC3339Date s))) := by
  simp [processClaim, reserved.ISSUED_AT, reserved.ISSUER, reserved.AUDIENCE,
    reserved.SUBJECT, Value.as_str, h]

theorem processClaim_badts_nbf {s : String} (h : parseRFC3339 s = none) :
    processClaim reserved.NOT_BEFORE (.str s) =
      .error (.ClaimError (.InvalidClaim (.RFC3339Date s))) := by
  simp [processClaim, reserved.NOT_BEFORE, reserved.ISSUER, reserved.AUDIENCE,
    reserved.SUBJECT, reserved.ISSUED_AT, Value.as_str, h]

theorem processClaim_badts_exp {s : String} (h : parseRFC3339 s = none) :
    processClaim reserved.EXPIRATION (.str s) =
      .error (.ClaimError (.InvalidClaim (.RFC3339Date s))) := by
  simp [processClaim, reserved.EXPIRATION, reserved.ISSUER, reserved.AUDIENCE,
    reserved.SUBJECT, reserved.ISSUED_AT, reserved.NOT_BEFORE, Value.as_str, h]

theorem processClaim_custom {k : String} (h : k ∉ reservedNames) (v : Value) :
    processClaim k v = .ok (k, v) := by
  simp only [reservedNames, reserved.ISSUER, reserved.SUBJECT, reserved.AUDIENCE,
    reserved.EXPIRATION, reserved.NOT_BEFORE, reserved.ISSUED_AT,
    reserved.TOKEN_IDENTIFIER, List.mem_cons, List.not_mem_nil, or_false,
    not_or] at h
  obtain ⟨h1, h2, h3, h4, h5, h6, h7⟩ := h
  simp [processClaim, reserved.ISSUER, reserved.SUBJECT, reserved.AUDIENCE,
    reserved.EXPIRATION, reserved.NOT_BEFORE, reserved.ISSUED_AT,
    reserved.TOKEN_IDENTIFIER, h1, h2, h3, h4, h5, h6, h7]

theorem processClaim_str_iss (s : String) :
    processClaim reserved.ISSUER (.str s) = .ok (reserved.ISSUER, .str s) := by
  simp [processClaim, Value.as_str]

theorem processClaim_str_aud (s : String) :
    processClaim reserved.AUDIENCE (.str s) = .ok (reserved.AUDIENCE, .str s) := by
  simp [processClaim, reserved.AUDIENCE, reserved.ISSUER, Value.as_str]

theorem processClaim_str_sub (s : String) :
    processClaim reserved.SUBJECT (.str s) = .ok (reserved.SUBJECT, .str s) := by
  simp [processClaim, reserved.SUBJECT, reserved.ISSUER, reserved.AUDIENCE,
    Value.as_str]

theorem processClaim_str_jti (s : String) :
    processClaim reserved.TOKEN_IDENTIFIER (.str s) =
      .ok (reserved.TOKEN_IDENTIFIER, .str s) := by
  simp [processClaim, reserved.TOKEN_IDENTIFIER, reserved.ISSUER,
    reserved.AUDIENCE, reserved.SUBJECT, reserved.ISSUED_AT,
    reserved.NOT_BEFORE, reserved.EXPIRATION, Value.as_str]

theorem processClaim_goodts_iat {s : String} {t : Timestamp}
    (h : parseRFC3339 s = some t) :
    processClaim reserved.ISSUED_AT (.str s) = .ok (reserved.ISSUED_AT, .str s) := by
  simp [processClaim, reserved.ISSUED_AT, reserved.ISSUER, reserved.AUDIENCE,
    reserved.SUBJECT, Value.as_str, h]

theorem processClaim_goodts_nbf {s : String} {t : Timestamp}
    (h : parseRFC3339 s = some t) :
    processClaim reserved.NOT_BEFORE (.str s) = .ok (reserved.NOT_BEFORE, .str s) := by
  simp [processClaim, reserved.NOT_BEFORE, reserved.ISSUER, reserved.AUDIENCE,
    reserved.SUBJECT, reserved.ISSUED_AT, Value.as_str, h]

theorem processClaim_goodts_exp {s : String} {t : Timestamp}
    (h : parseRFC3339 s = some t) :
    processClaim reserved.EXPIRATION (.str s) = .ok (reserved.EXPIRATION, .str s) := by
  simp [processClaim, reserved.EXPIRATION, reserved.ISSUER, reserved.AUDIENCE,
    reserved.SUBJECT, reserved.ISSUED_AT, reserved.NOT_BEFORE, Value.as_str, h]

theorem buildPayload_ok {l : List (String × Value)}
    (h : ∀ kv ∈ l, processClaim kv.1 kv.2 = .ok kv) :
    buildPayload l = .ok l := by
  induction l with
  | nil => rfl
  | cons hd tl ih =>
    obtain ⟨k, v⟩ := hd
    have h1 := h (k, v) (List.mem_cons_self _ _)
    have h2 := ih (fun kv hkv => h kv (List.mem_cons_of_mem _ hkv))
    rw [buildPayload, h1, h2]

theorem buildPayload_error :
    ∀ (l1 : List (String × Value)) {k : String} {v : Value} {e : TokenError}
    (l2 : List (String × Value)),
    (∀ kv ∈ l1, ∃ r, processClaim kv.1 kv.2 = .ok r) →
    processClaim k v = .error e →
    buildPayload (l1 ++ (k, v) :: l2) = .error e := by
  intro l1
  induction l1 with
  | nil =>
    intro k v e l2 _ herr
    rw [List.nil_append, buildPayload, herr]
  | cons hd tl ih =>
    intro k v e l2 hok herr
    obtain ⟨k1, v1⟩ := hd
    obtain ⟨r, hr⟩ := hok (k1, v1) (List.mem_cons_self _ _)
    rw [List.cons_append, buildPayload, hr,
      ih l2 (fun kv hkv => hok kv (List.mem_cons_of_mem _ hkv)) herr]

/-! ## Lemmas about claim-set construction -/

theorem set_claim_ok_inv {c c' : Claims} {k : String} {v : Value}
    (h : c.set_claim k (.ok v) = .ok c') :
    v.is_null = false ∧ c' = ⟨insertClaim k v c.claims⟩ := by
  simp only [Claims.set_claim] at h
  by_cases hn : v.is_null
  · rw [if_pos hn] at h
    exact absurd h (by simp)
  · rw [if_neg hn] at h
    exact ⟨Bool.eq_false_iff.mpr hn, (Except.ok.inj h).symm⟩

theorem addCustoms_mem :
    ∀ (customs : List (String × Value)) (c c' : Claims),
    addCustoms c customs = .ok c' →
    ∀ kv ∈ c'.claims, kv ∈ customs ∨ kv ∈ c.claims := by
  intro customs
  induction customs with
  | nil =>
    intro c c' h kv hkv
    cases h
    exact Or.inr hkv
  | cons hd tl ih =>
    intro c c' h kv hkv
    obtain ⟨k0, v0⟩ := hd
    rw [addCustoms] at h
    cases hsc : Claims.set_claim c k0 (.ok v0) with
    | error e =>
      rw [hsc] at h
      exact absurd h (by simp)
    | ok c1 =>
      rw [hsc] at h
      obtain ⟨-, hc1⟩ := set_claim_ok_inv hsc
      subst hc1
      rcases ih _ _ h kv hkv with hmem | hmem
      · exact Or.inl (List.mem_cons_of_mem _ hmem)
      · rcases mem_insertClaim hmem with rfl | h'
        · exact Or.inl (List.mem_cons_self _ _)
        · exact Or.inr h'

theorem addCustoms_lookup_preserved :
    ∀ (customs : List (String × Value)) (c c' : Claims) (q : String),
    addCustoms c customs = .ok c' → q ∉ customs.map Prod.fst →
    lookupClaim q c'.claims = lookupClaim q c.claims := by
  intro customs
  induction customs with
  | nil =>
    intro c c' q h _
    cases h
    rfl
  | cons hd tl ih =>
    intro c c' q h hq
    obtain ⟨k0, v0⟩ := hd
    simp only [List.map_cons, List.mem_cons, not_or] at hq
    obtain ⟨hq0, hqtl⟩ := hq
    rw [addCustoms] at h
    cases hsc : Claims.set_claim c k0 (.ok v0) with
    | error e =>
      rw [hsc] at h
      exact absurd h (by simp)
    | ok c1 =>
      rw [hsc] at h
      obtain ⟨-, hc1⟩ := set_claim_ok_inv hsc
      subst hc1
      rw [ih _ _ _ h hqtl]
      exact lookupClaim_insertClaim_ne hq0 _ _

theorem addCustoms_sorted :
    ∀ (customs : List (String × Value)) (c c' : Claims),
    addCustoms c customs = .ok c' → SortedKeys c.claims →
    SortedKeys c'.claims := by
  intro customs
  induction customs with
  | nil =>
    intro c c' h hs
    cases h
    exact hs
  | cons hd tl ih =>
    intro c c' h hs
    obtain ⟨k0, v0⟩ := hd
    rw [addCustoms] at h
    cases hsc : Claims.set_claim c k0 (.ok v0) with
    | error e =>
      rw [hsc] at h
      exact absurd h (by simp)
    | ok c1 =>
      rw [hsc] at h
      obtain ⟨-, hc1⟩ := set_claim_ok_inv hsc
      subst hc1
      exact ih _ _ h (sortedKeys_insertClaim hs)

theorem addCustoms_lookup_mem :
    ∀ (customs : List (String × Value)) (c c' : Claims),
    addCustoms c customs = .ok c' → (customs.map Prod.fst).Nodup →
    ∀ (k : String) (v : Value), (k, v) ∈ customs →
    lookupClaim k c'.claims = some v := by
  intro customs
  induction customs with
  | nil =>
    intro c c' _ _ k v hmem
    exact absurd hmem (List.not_mem_nil _)
  | cons hd tl ih =>
    intro c c' h hnd k v hmem
    obtain ⟨k0, v0⟩ := hd
    simp only [List.map_cons, List.nodup_cons] at hnd
    obtain ⟨hk0, hnd'⟩ := hnd
    rw [addCustoms] at h
    cases hsc : Claims.set_claim c k0 (.ok v0) with
    | error e =>
      rw [hsc] at h
      exact absurd h (by simp)
    | ok c1 =>
      rw [hsc] at h
      obtain ⟨-, hc1⟩ := set_claim_ok_inv hsc
      subst hc1
      rcases List.mem_cons.mp hmem with heq | hmem'
      · cases heq
        rw [addCustoms_lookup_preserved _ _ _ _ h hk0]
        exact lookupClaim_insertClaim_self _ _ _
      · exact ih _ _ h hnd' _ _ hmem'

theorem maker_new_inv {kp : KeypairBytes} {m : Maker}
    (h : Maker.new kp = .ok m) :
    m.public_key = derivePub m.private_key.seed ∧
    m.private_key.seed = kp.seed ∧
    m.public_key_bytes = derivePub kp.seed := by
  rw [Maker.new] at h
  cases hf : from_keypair_bytes kp with
  | error e =>
    rw [hf] at h
    exact absurd h (by simp)
  | ok sk =>
    rw [hf] at h
    have hsk : sk = kp := by
      rw [from_keypair_bytes] at hf
      by_cases hd : derivePub kp.seed = kp.pubPart
      · rw [if_pos hd] at hf
        exact (Except.ok.inj hf).symm
      · rw [if_neg hd] at hf
        exact absurd hf (by simp)
    subst hsk
    cases h
    exact ⟨rfl, rfl, rfl⟩

theorem as_str_some {v : Value} {s : String} (h : v.as_str = some s) :
    v = .str s := by
  cases v <;> simp_all [Value.as_str]

theorem create_token_single_error {m : Maker} {k : String} {v : Value}
    {e : TokenError} (h : processClaim k v = .error e) :
    m.create_token ⟨[(k, v)]⟩ = .error e := by
  simp [Maker.create_token, Claims.iter, buildPayload, h]

/-! ## The claims -/

/-- C2: for every claim set, key and serialization outcome, `set_claim`
returns `SerializationError` when serialization itself failed, rejects a
null result with `InvalidValue`, and otherwise stores (overwriting) the value
and succeeds. In the pure embedding a failing call returns only the error —
the Rust method early-returns before its `insert`, so on failure the map is
untouched and an absent key remains absent. -/
theorem claim_C2 (c : Claims) (key : String) (ser : Except String Value) :
    (∀ e, ser = .error e →
      c.set_claim key ser = .error (.SerializationError e)) ∧
    (∀ v, ser = .ok v → v.is_null = true →
      c.set_claim key ser = .error .InvalidValue) ∧
    (∀ v, ser = .ok v → v.is_null = false →
      c.set_claim key ser = .ok ⟨insertClaim key v c.claims⟩) := by
  refine ⟨?_, ?_, ?_⟩
  · intro e he
    subst he
    rfl
  · intro v hv hn
    subst hv
    simp [Claims.set_claim, hn]
  · intro v hv hn
    subst hv
    simp [Claims.set_claim, hn]

/-- Witness for C2 at concrete inputs: a failed serialization propagates its
text, a null value is rejected, and a boolean is stored under its key. -/
theorem claim_C2_witness :
    Claims.new.set_claim "k" (.error "boom") =
      .error (.SerializationError "boom") ∧
    Claims.new.set_claim "k" (.ok .null) = .error .InvalidValue ∧
    Claims.new.set_claim "k" (.ok (.bool true)) =
      .ok ⟨[("k", .bool true)]⟩ :=
  ⟨(claim_C2 Claims.new "k" (.error "boom")).1 "boom" rfl,
   (claim_C2 Claims.new "k" (.ok .null)).2.1 .null rfl rfl,
   (claim_C2 Claims.new "k" (.ok (.bool true))).2.2 (.bool true) rfl rfl⟩

/-- C6: `get_claim` returns `some v` exactly when the key is present and its
stored value deserializes to `v`; it returns `none` both when the key is
absent and when deserialization fails, with no distinction between the two. -/
theorem claim_C6 {α : Type} (c : Claims) (key : String) (des : Value → Option α) :
    (∀ v : α, c.get_claim key des = some v ↔
      ∃ w, lookupClaim key c.claims = some w ∧ des w = some v) ∧
    (c.get_claim key des = none ↔
      (lookupClaim key c.claims = none ∨
        ∃ w, lookupClaim key c.claims = some w ∧ des w = none)) := by
  cases hl : lookupClaim key c.claims with
  | none => simp [Claims.get_claim, hl]
  | some w => simp [Claims.get_claim, hl]

/-- Witness for C6: a missing key and a wrong-typed stored value both give
`none`, and a present well-typed value is returned. -/
theorem claim_C6_witness :
    Claims.new.get_claim "missing" deserializeBool = none ∧
    (Claims.mk [("k", .str "x")]).get_claim "k" deserializeBool = none ∧
    (Claims.mk [("k", .bool true)]).get_claim "k" deserializeBool = some true :=
  ⟨(claim_C6 Claims.new "missing" deserializeBool).2.mpr (Or.inl rfl),
   (claim_C6 (Claims.mk [("k", .str "x")]) "k" deserializeBool).2.mpr
     (Or.inr ⟨.str "x", rfl, rfl⟩),
   ((claim_C6 (Claims.mk [("k", .bool true)]) "k" deserializeBool).1 true).mpr
     ⟨.bool true, rfl, rfl⟩⟩

/-- C7: converting a decoded payload into a claim set yields, for an object
payload, exactly the object's pairs (a `serde_json::Map` is itself a
`BTreeMap`, hence key-sorted and duplicate-free, which the hypothesis
records), and for every non-object payload the empty claim set — silently,
not an error. -/
theorem claim_C7 (fields : List (String × Value)) (hs : SortedKeys fields)
    (b : Bool) (n : Int) (s : String) (elems : List Value) :
    Claims.fromValue (.obj fields) = ⟨fields⟩ ∧
    Claims.fromValue .null = Claims.new ∧
    Claims.fromValue (.bool b) = Claims.new ∧
    Claims.fromValue (.num n) = Claims.new ∧
    Claims.fromValue (.str s) = Claims.new ∧
    Claims.fromValue (.arr elems) = Claims.new :=
  ⟨fromValue_obj_of_sorted hs, rfl, rfl, rfl, rfl, rfl⟩

/-- Witness for C7 at a concrete two-entry object and concrete non-object
payloads. -/
theorem claim_C7_witness :
    Claims.fromValue (.obj [("a", .num 1), ("b", .bool true)]) =
      ⟨[("a", .num 1), ("b", .bool true)]⟩ ∧
    Claims.fromValue (.str "x") = Claims.new ∧
    Claims.fromValue (.num 3) = Claims.new := by
  have hs : SortedKeys [("a", Value.num 1), ("b", Value.bool true)] := by
    rw [SortedKeys, List.pairwise_cons]
    refine ⟨?_, List.pairwise_singleton _ _⟩
    intro b hb
    rcases List.mem_cons.mp hb with rfl | hb'
    · rw [show (("a", Value.num 1).1 < ("b", Value.bool true).1) =
        (("a" : String) < "b") from rfl, String.lt_iff_toList_lt]
      decide
    · exact absurd hb' (List.not_mem_nil _)
  have h := claim_C7 [("a", .num 1), ("b", .bool true)] hs true 3 "x" []
  exact ⟨h.1, h.2.2.2.2.1, h.2.2.2.1⟩

/-- C8: `verify_token` either returns the claim set converted from the
engine's verified payload, or wraps the engine's error text as
`TokenCreationFailed`; no other error variant arises on the verify path. -/
theorem claim_C8 (m : Maker) (t : Token) :
    (∃ v, engineParse t m.public_key = .ok v ∧
      m.verify_token t = .ok (Claims.fromValue v)) ∨
    (∃ e, engineParse t m.public_key = .error e ∧
      m.verify_token t = .error (.TokenCreationFailed e)) := by
  cases hp : engineParse t m.public_key with
  | ok v => exact Or.inl ⟨v, rfl, by rw [Maker.verify_token, hp]⟩
  | error e => exact Or.inr ⟨e, rfl, by rw [Maker.verify_token, hp]⟩

/-- C9: for every generated keypair, constructing a `Maker` from the private
keypair bytes succeeds and the constructed `Maker`'s public key bytes equal
the generated public key bytes. -/
theorem claim_C9 (seed : Nat) :
    ∃ m, Maker.new (Maker.new_keypair seed).1 = .ok m ∧
      m.public_key_as_bytes = (Maker.new_keypair seed).2 := by
  refine ⟨{ private_key := ⟨seed, derivePub seed⟩, public_key := derivePub seed,
            public_key_bytes := derivePub seed, version := "v4",
            purpose := publicPurposeName }, ?_, rfl⟩
  simp [Maker.new, Maker.new_keypair, from_keypair_bytes]

/-- Witness for C8 at a concrete maker and a malformed token. -/
theorem claim_C8_witness :
    (∃ v, engineParse (Token.malformed "bad") 1 = .ok v ∧
      (Maker.mk ⟨0, 1⟩ 1 1 "v4" "public").verify_token (Token.malformed "bad") =
        .ok (Claims.fromValue v)) ∨
    (∃ e, engineParse (Token.malformed "bad") 1 = .error e ∧
      (Maker.mk ⟨0, 1⟩ 1 1 "v4" "public").verify_token (Token.malformed "bad") =
        .error (.TokenCreationFailed e)) :=
  claim_C8 (Maker.mk ⟨0, 1⟩ 1 1 "v4" "public") (Token.malformed "bad")

/-- Witness for C9 at seed 0. -/
theorem claim_C9_witness :
    ∃ m, Maker.new (Maker.new_keypair 0).1 = .ok m ∧
      m.public_key_as_bytes = (Maker.new_keypair 0).2 :=
  claim_C9 0

theorem noNullClaims_iff {c : Claims} :
    noNullClaims c = true ↔ ∀ kv ∈ c.claims, kv.2.is_null = false := by
  simp [noNullClaims, List.all_eq_true]

theorem noNullClaims_insert {c : Claims} {k : String} {v : Value}
    (hc : noNullClaims c = true) (hv : v.is_null = false) :
    noNullClaims ⟨insertClaim k v c.claims⟩ = true := by
  rw [noNullClaims_iff] at hc ⊢
  intro kv hkv
  rcases mem_insertClaim hkv with rfl | hmem
  · exact hv
  · exact hc kv hmem

/-- C3 counterexample: the claim quantifies over every claim set reachable
through the public operations, including conversion from a decoded token
payload — but `From<Value>` copies an object's pairs verbatim, nulls
included, so the claim set decoded from a payload carrying a null custom
claim stores a JSON null. -/
theorem claim_C3_counterexample :
    ("k", Value.null) ∈ (Claims.fromValue (.obj [("k", Value.null)])).claims ∧
    noNullClaims (Claims.fromValue (.obj [("k", Value.null)])) = false :=
  ⟨List.mem_singleton.mpr rfl, rfl⟩

/-- C3 as amended: null is not representable through the construction
operations — every claim set built from `new`, the `with_*` setters and
successful `set_claim` calls contains no null value. Conversion from a
decoded payload is excluded: it copies null entries verbatim. -/
theorem claim_C3 (c : Claims) (h : BuiltClaims c) : noNullClaims c = true := by
  induction h with
  | new => rfl
  | with_subject c s _ ih => exact noNullClaims_insert ih rfl
  | with_issuer c s _ ih => exact noNullClaims_insert ih rfl
  | with_audience c s _ ih => exact noNullClaims_insert ih rfl
  | with_expiration c s _ ih => exact noNullClaims_insert ih rfl
  | with_not_before c s _ ih => exact noNullClaims_insert ih rfl
  | with_issued_at c s _ ih => exact noNullClaims_insert ih rfl
  | with_token_identifier c s _ ih => exact noNullClaims_insert ih rfl
  | set_claim_ok c key ser c' _ hok ih =>
    cases ser with
    | error e =>
      exact absurd hok (by simp [Claims.set_claim])
    | ok v =>
      obtain ⟨hn, hc'⟩ := set_claim_ok_inv hok
      subst hc'
      exact noNullClaims_insert ih hn

/-- Witness for the amended C3 on a concrete built claim set. -/
theorem claim_C3_witness :
    noNullClaims ((Claims.new.with_subject "a").with_issuer "b") = true :=
  claim_C3 _ (BuiltClaims.with_issuer _ _
    (BuiltClaims.with_subject _ _ BuiltClaims.new))

/-- C10: `set_claim` applies no reserved-name shape validation — for every
reserved claim name and every non-null serializable value of the wrong shape
it succeeds and stores the value (visible through a lookup), and the shape
error surfaces only when `create_token` runs on that claim set. -/
theorem claim_C10 (c : Claims) (name : String) (v : Value) (m : Maker)
    (hres : name ∈ reservedNames) (hnn : v.is_null = false)
    (hws : wrongShape name v = true) :
    c.set_claim name (.ok v) = .ok ⟨insertClaim name v c.claims⟩ ∧
    lookupClaim name (insertClaim name v c.claims) = some v ∧
    ∃ e, m.create_token ⟨[(name, v)]⟩ = .error e := by
  refine ⟨by simp [Claims.set_claim, hnn],
    lookupClaim_insertClaim_self _ _ _, ?_⟩
  simp only [reservedNames, List.mem_cons, List.not_mem_nil, or_false] at hres
  cases hv : v.as_str with
  | none =>
    rcases hres with rfl | rfl | rfl | rfl | rfl | rfl | rfl
    · exact ⟨_, create_token_single_error (processClaim_nonstring_iss hv)⟩
    · exact ⟨_, create_token_single_error (processClaim_nonstring_sub hv)⟩
    · exact ⟨_, create_token_single_error (processClaim_nonstring_aud hv)⟩
    · exact ⟨_, create_token_single_error (processClaim_nonstring_exp hv)⟩
    · exact ⟨_, create_token_single_error (processClaim_nonstring_nbf hv)⟩
    · exact ⟨_, create_token_single_error (processClaim_nonstring_iat hv)⟩
    · exact ⟨_, create_token_single_error (processClaim_nonstring_jti hv)⟩
  | some s =>
    have hvs := as_str_some hv
    subst hvs
    rcases hres with rfl | rfl | rfl | rfl | rfl | rfl | rfl
    · exact absurd hws (by simp [wrongShape, Value.as_str, reserved.ISSUER,
        reserved.EXPIRATION, reserved.NOT_BEFORE, reserved.ISSUED_AT])
    · exact absurd hws (by simp [wrongShape, Value.as_str, reserved.SUBJECT,
        reserved.EXPIRATION, reserved.NOT_BEFORE, reserved.ISSUED_AT])
    · exact absurd hws (by simp [wrongShape, Value.as_str, reserved.AUDIENCE,
        reserved.EXPIRATION, reserved.NOT_BEFORE, reserved.ISSUED_AT])
    · have hp : parseRFC3339 s = none := by
        simp [wrongShape, Value.as_str] at hws
        exact hws
      exact ⟨_, create_token_single_error (processClaim_badts_exp hp)⟩
    · have hp : parseRFC3339 s = none := by
        simp [wrongShape, Value.as_str, reserved.NOT_BEFORE,
          reserved.EXPIRATION, reserved.ISSUED_AT] at hws
        exact hws
      exact ⟨_, create_token_single_error (processClaim_badts_nbf hp)⟩
    · have hp : parseRFC3339 s = none := by
        simp [wrongShape, Value.as_str, reserved.ISSUED_AT,
          reserved.EXPIRATION, reserved.NOT_BEFORE] at hws
        exact hws
      exact ⟨_, create_token_single_error (processClaim_badts_iat hp)⟩
    · exact absurd hws (by simp [wrongShape, Value.as_str,
        reserved.TOKEN_IDENTIFIER, reserved.EXPIRATION, reserved.NOT_BEFORE,
        reserved.ISSUED_AT])

/-- Witness for C10: a numeric expiration is stored by `set_claim` and only
fails at `create_token`, with the expiration-specific `InvalidClaim`. -/
theorem claim_C10_witness :
    Claims.new.set_claim "exp" (.ok (.num 5)) = .ok ⟨[("exp", .num 5)]⟩ ∧
    lookupClaim "exp" (insertClaim "exp" (.num 5) []) = some (.num 5) ∧
    ∃ e, (Maker.mk ⟨0, 1⟩ 1 1 "v4" "public").create_token ⟨[("exp", .num 5)]⟩ =
      .error e := by
  have h := claim_C10 Claims.new "exp" (.num 5)
    (Maker.mk ⟨0, 1⟩ 1 1 "v4" "public")
    (by simp [reservedNames, reserved.EXPIRATION]) rfl rfl
  exact h

theorem buildFrom_eq_of_perm {ps qs : List (String × Value)}
    (hperm : ps.Perm qs) (hnd : (ps.map Prod.fst).Nodup) :
    buildFrom ps = buildFrom qs := by
  have hnd' : (qs.map Prod.fst).Nodup := ((hperm.map Prod.fst).nodup_iff).mp hnd
  have hs1 : SortedKeys (buildFrom ps).claims :=
    sortedKeys_foldl List.Pairwise.nil
  have hs2 : SortedKeys (buildFrom qs).claims :=
    sortedKeys_foldl List.Pairwise.nil
  have hcl : (buildFrom ps).claims = (buildFrom qs).claims := by
    apply sorted_lookup_ext hs1 hs2
    intro q
    rw [show (buildFrom ps).claims =
      ps.foldl (fun acc kv => insertClaim kv.1 kv.2 acc) [] from rfl]
    rw [show (buildFrom qs).claims =
      qs.foldl (fun acc kv => insertClaim kv.1 kv.2 acc) [] from rfl]
    rw [lookupClaim_foldl _ _ hnd, lookupClaim_foldl _ _ hnd',
      lookupClaim_perm hperm hnd q]
  cases hps : buildFrom ps with
  | mk l =>
    cases hqs : buildFrom qs with
    | mk l' =>
      rw [hps, hqs] at hcl
      exact congrArg Claims.mk hcl

/-- C5: two claim sets built by inserting the same distinct-named pairs in
any two orders have identical `iter()` sequences; that sequence is sorted by
claim name in the natural string order; and a later insert for an existing
name overwrites the earlier value. -/
theorem claim_C5 (ps qs : List (String × Value))
    (hnd : (ps.map Prod.fst).Nodup) (hperm : ps.Perm qs) :
    (buildFrom ps).iter = (buildFrom qs).iter ∧
    SortedKeys (buildFrom ps).iter ∧
    (∀ (l : List (String × Value)) (k : String) (v w : Value),
      lookupClaim k (insertClaim k v (insertClaim k w l)) = some v) :=
  ⟨congrArg Claims.iter (buildFrom_eq_of_perm hperm hnd),
   sortedKeys_foldl List.Pairwise.nil,
   fun l k v w => lookupClaim_insertClaim_self k v (insertClaim k w l)⟩

/-- Witness for C5: the two insertion orders of a concrete two-entry pair
list coincide, the result is key-sorted, and re-inserting a key overwrites. -/
theorem claim_C5_witness :
    (buildFrom [("b", .num 1), ("a", .str "x")]).iter =
      (buildFrom [("a", .str "x"), ("b", .num 1)]).iter ∧
    SortedKeys (buildFrom [("b", .num 1), ("a", .str "x")]).iter ∧
    lookupClaim "k" (insertClaim "k" (.num 2) (insertClaim "k" (.num 1) [])) =
      some (.num 2) := by
  have h := claim_C5 [("b", .num 1), ("a", .str "x")]
    [("a", .str "x"), ("b", .num 1)]
    (by simp)
    (List.Perm.swap ("a", Value.str "x") ("b", Value.num 1) [])
  exact ⟨h.1, h.2.1, h.2.2 [] "k" (.num 2) (.num 1)⟩

theorem buildReserved_claims (sub iss aud exp nbf iat jti : String) :
    (buildReserved sub iss aud exp nbf iat jti).claims =
      [("aud", .str aud), ("exp", .str exp), ("iat", .str iat),
       ("iss", .str iss), ("jti", .str jti), ("nbf", .str nbf),
       ("sub", .str sub)] := by
  simp +decide [buildReserved, Claims.new, Claims.with_subject,
    Claims.with_issuer, Claims.with_audience, Claims.with_expiration,
    Claims.with_not_before, Claims.with_issued_at,
    Claims.with_token_identifier, insertClaim, reserved.SUBJECT,
    reserved.ISSUER, reserved.AUDIENCE, reserved.EXPIRATION,
    reserved.NOT_BEFORE, reserved.ISSUED_AT, reserved.TOKEN_IDENTIFIER]

theorem buildReserved_sorted (sub iss aud exp nbf iat jti : String) :
    SortedKeys (buildReserved sub iss aud exp nbf iat jti).claims :=
  sortedKeys_insertClaim (sortedKeys_insertClaim (sortedKeys_insertClaim
    (sortedKeys_insertClaim (sortedKeys_insertClaim (sortedKeys_insertClaim
      (sortedKeys_insertClaim List.Pairwise.nil))))))

/-- C4: during `create_token` the claims are validated one at a time in the
map's iteration order — which is sorted claim-name order — and the first
invalid claim short-circuits with its error and no token (third conjunct,
stated positionally over the iterated sequence). A non-string value for
issuer, subject, audience or token-identifier fails with the corresponding
`InvalidClaim("Invalid <claim> claim")` message; for issued-at, not-before
and expiration a non-string fails the same way and a string that does not
parse as RFC3339 fails with the claim-validation error wrapping the parse
error for that value. -/
theorem claim_C4 :
    (∀ v : Value, v.as_str = none →
      processClaim reserved.ISSUER v =
        .error (.InvalidClaim "Invalid issuer claim") ∧
      processClaim reserved.SUBJECT v =
        .error (.InvalidClaim "Invalid subject claim") ∧
      processClaim reserved.AUDIENCE v =
        .error (.InvalidClaim "Invalid audience claim") ∧
      processClaim reserved.TOKEN_IDENTIFIER v =
        .error (.InvalidClaim "Invalid token identifier claim") ∧
      processClaim reserved.ISSUED_AT v =
        .error (.InvalidClaim "Invalid issued at claim") ∧
      processClaim reserved.NOT_BEFORE v =
        .error (.InvalidClaim "Invalid not before claim") ∧
      processClaim reserved.EXPIRATION v =
        .error (.InvalidClaim "Invalid expiration claim")) ∧
    (∀ s : String, parseRFC3339 s = none →
      processClaim reserved.ISSUED_AT (.str s) =
        .error (.ClaimError (.InvalidClaim (.RFC3339Date s))) ∧
      processClaim reserved.NOT_BEFORE (.str s) =
        .error (.ClaimError (.InvalidClaim (.RFC3339Date s))) ∧
      processClaim reserved.EXPIRATION (.str s) =
        .error (.ClaimError (.InvalidClaim (.RFC3339Date s)))) ∧
    (∀ (m : Maker) (l1 l2 : List (String × Value)) (k : String) (v : Value)
      (e : TokenError),
      (∀ kv ∈ l1, ∃ r, processClaim kv.1 kv.2 = .ok r) →
      processClaim k v = .error e →
      m.create_token ⟨l1 ++ (k, v) :: l2⟩ = .error e) := by
  refine ⟨?_, ?_, ?_⟩
  · intro v hv
    exact ⟨processClaim_nonstring_iss hv, processClaim_nonstring_sub hv,
      processClaim_nonstring_aud hv, processClaim_nonstring_jti hv,
      processClaim_nonstring_iat hv, processClaim_nonstring_nbf hv,
      processClaim_nonstring_exp hv⟩
  · intro s hs
    exact ⟨processClaim_badts_iat hs, processClaim_badts_nbf hs,
      processClaim_badts_exp hs⟩
  · intro m l1 l2 k v e hok herr
    have hb := buildPayload_error l1 l2 hok herr
    rw [Maker.create_token, Claims.iter, hb]

/-- Witness for C4: a numeric issuer fails with the issuer message, a
non-RFC3339 issued-at string fails with the wrapped parse error, and on a
claim set with a valid issued-at followed by a numeric subject the token
creation short-circuits with the subject error. -/
theorem claim_C4_witness :
    processClaim "iss" (.num 1) =
      .error (.InvalidClaim "Invalid issuer claim") ∧
    processClaim "iat" (.str "nope") =
      .error (.ClaimError (.InvalidClaim (.RFC3339Date "nope"))) ∧
    (Maker.mk ⟨0, 1⟩ 1 1 "v4" "public").create_token
      ⟨[("iat", .str "2019-01-01T00:00:00+00:00"), ("sub", .num 7)]⟩ =
      .error (.InvalidClaim "Invalid subject claim") := by
  obtain ⟨h1, h2, h3⟩ := claim_C4
  refine ⟨(h1 (.num 1) rfl).1, (h2 "nope" rfl).1, ?_⟩
  have hiat : processClaim "iat" (Value.str "2019-01-01T00:00:00+00:00") =
      .ok ("iat", Value.str "2019-01-01T00:00:00+00:00") := by
    refine processClaim_goodts_iat (t := ?_) ?_
    · exact ⟨2019, 1, 1, 0, 0, 0, [], false, 0, 0⟩
    · rfl
  have hsub : processClaim "sub" (Value.num 7) =
      .error (.InvalidClaim "Invalid subject claim") := (h1 (.num 7) rfl).2.1
  exact h3 (Maker.mk ⟨0, 1⟩ 1 1 "v4" "public")
    [("iat", .str "2019-01-01T00:00:00+00:00")] [] "sub" (.num 7) _
    (fun kv hkv => by
      rcases List.mem_cons.mp hkv with rfl | hk
      · exact ⟨_, hiat⟩
      · exact absurd hk (List.not_mem_nil _))
    hsub

/-- C1: the issue/verify round trip. For a claim set built from all seven
reserved-claim builder setters with syntactically valid values (strings, the
three timestamps RFC3339-parseable) and custom claims added through
`set_claim` with distinct non-reserved names, `create_token` succeeds and
verifying the produced token returns the same claim set, whose typed getters
return the set values — the string getters return the original strings, the
timestamp getters return the timestamp parsed from the original string
(chrono reads the stored RFC3339 string back), and `get_claim` returns each
custom value. -/
theorem claim_C1 (sub iss aud exp nbf iat jti : String)
    (customs : List (String × Value)) (kp : KeypairBytes) (m : Maker)
    (c : Claims)
    (hexp : (parseRFC3339 exp).isSome = true)
    (hnbf : (parseRFC3339 nbf).isSome = true)
    (hiat : (parseRFC3339 iat).isSome = true)
    (hcust : ∀ kv ∈ customs, kv.1 ∉ reservedNames)
    (hnd : (customs.map Prod.fst).Nodup)
    (hm : Maker.new kp = .ok m)
    (hc : addCustoms (buildReserved sub iss aud exp nbf iat jti) customs =
      .ok c) :
    m.create_token c = .ok (engineSign c.claims m.private_key) ∧
    m.verify_token (engineSign c.claims m.private_key) = .ok c ∧
    c.get_subject = some sub ∧
    c.get_issuer = some iss ∧
    c.get_audience = some aud ∧
    c.get_token_identifier = some jti ∧
    c.get_expiration = parseRFC3339 exp ∧
    c.get_not_before = parseRFC3339 nbf ∧
    c.get_issued_at = parseRFC3339 iat ∧
    (∀ (k : String) (v : Value), (k, v) ∈ customs →
      c.get_claim k deserializeValue = some v) := by
  have hknr : ∀ q, q ∈ reservedNames → q ∉ List.map Prod.fst customs := by
    intro q hq hmem
    rcases List.mem_map.mp hmem with ⟨kv, hkv, hkv1⟩
    exact hcust kv hkv (hkv1 ▸ hq)
  have hRcl := buildReserved_claims sub iss aud exp nbf iat jti
  have hRs := buildReserved_sorted sub iss aud exp nbf iat jti
  have hsorted : SortedKeys c.claims := addCustoms_sorted _ _ _ hc hRs
  have hlook : ∀ q, q ∈ reservedNames →
      lookupClaim q c.claims =
        lookupClaim q (buildReserved sub iss aud exp nbf iat jti).claims :=
    fun q hq => addCustoms_lookup_preserved _ _ _ _ hc (hknr q hq)
  obtain ⟨texp, hexp'⟩ := Option.isSome_iff_exists.mp hexp
  obtain ⟨tnbf, hnbf'⟩ := Option.isSome_iff_exists.mp hnbf
  obtain ⟨tiat, hiat'⟩ := Option.isSome_iff_exists.mp hiat
  have hvalid : ∀ kv ∈ c.claims, processClaim kv.1 kv.2 = .ok kv := by
    intro kv hkv
    rcases addCustoms_mem _ _ _ hc kv hkv with hmem | hmem
    · exact processClaim_custom (hcust kv hmem) kv.2
    · rw [hRcl] at hmem
      rcases List.mem_cons.mp hmem with rfl | hmem
      · exact processClaim_str_aud aud
      · rcases List.mem_cons.mp hmem with rfl | hmem
        · exact processClaim_goodts_exp hexp'
        · rcases List.mem_cons.mp hmem with rfl | hmem
          · exact processClaim_goodts_iat hiat'
          · rcases List.mem_cons.mp hmem with rfl | hmem
            · exact processClaim_str_iss iss
            · rcases List.mem_cons.mp hmem with rfl | hmem
              · exact processClaim_str_jti jti
              · rcases List.mem_cons.mp hmem with rfl | hmem
                · exact processClaim_goodts_nbf hnbf'
                · rcases List.mem_cons.mp hmem with rfl | hmem
                  · exact processClaim_str_sub sub
                  · exact absurd hmem (List.not_mem_nil _)
  have hbp : buildPayload c.claims = .ok c.claims := buildPayload_ok hvalid
  have hct : m.create_token c = .ok (engineSign c.claims m.private_key) := by
    rw [Maker.create_token, Claims.iter, hbp]
  obtain ⟨hpk, -, -⟩ := maker_new_inv hm
  have hep : engineParse (engineSign c.claims m.private_key) m.public_key =
      .ok (.obj c.claims) := by
    rw [hpk]
    simp [engineSign, engineParse]
  have hvt : m.verify_token (engineSign c.claims m.private_key) = .ok c := by
    rw [Maker.verify_token, hep]
    show Except.ok (Claims.fromValue (Value.obj c.claims)) = Except.ok c
    rw [fromValue_obj_of_sorted hsorted]
  refine ⟨hct, hvt, ?_, ?_, ?_, ?_, ?_, ?_, ?_, ?_⟩
  · rw [Claims.get_subject, Claims.get_claim,
      hlook reserved.SUBJECT (by decide), hRcl]
    rfl
  · rw [Claims.get_issuer, Claims.get_claim,
      hlook reserved.ISSUER (by decide), hRcl]
    rfl
  · rw [Claims.get_audience, Claims.get_claim,
      hlook reserved.AUDIENCE (by decide), hRcl]
    rfl
  · rw [Claims.get_token_identifier, Claims.get_claim,
      hlook reserved.TOKEN_IDENTIFIER (by decide), hRcl]
    rfl
  · rw [Claims.get_expiration, Claims.get_claim,
      hlook reserved.EXPIRATION (by decide), hRcl]
    rfl
  · rw [Claims.get_not_before, Claims.get_claim,
      hlook reserved.NOT_BEFORE (by decide), hRcl]
    rfl
  · rw [Claims.get_issued_at, Claims.get_claim,
      hlook reserved.ISSUED_AT (by decide), hRcl]
    rfl
  · intro k v hkv
    rw [Claims.get_claim, addCustoms_lookup_mem _ _ _ hc hnd k v hkv]
    rfl

/-- Witness for C1: the doc-example claim set (subject 1234567890, issuer,
audience, three timestamps, token id, plus the custom claims admin = true
and name = John Doe) survives issue and verify unchanged, with the getters
returning the set values. -/
theorem claim_C1_witness :
    (Maker.mk ⟨0, 1⟩ 1 1 "v4" "public").create_token
        ⟨[("admin", Value.bool true), ("aud", Value.str "audience"),
          ("exp", Value.str "2023-10-01T00:00:00+00:00"),
          ("iat", Value.str "2023-09-01T00:00:00+00:00"),
          ("iss", Value.str "issuer"), ("jti", Value.str "token_id"),
          ("name", Value.str "John Doe"),
          ("nbf", Value.str "2023-09-01T00:00:00+00:00"),
          ("sub", Value.str "1234567890")]⟩ =
      .ok (engineSign
        [("admin", Value.bool true), ("aud", Value.str "audience"),
         ("exp", Value.str "2023-10-01T00:00:00+00:00"),
         ("iat", Value.str "2023-09-01T00:00:00+00:00"),
         ("iss", Value.str "issuer"), ("jti", Value.str "token_id"),
         ("name", Value.str "John Doe"),
         ("nbf", Value.str "2023-09-01T00:00:00+00:00"),
         ("sub", Value.str "1234567890")] ⟨0, 1⟩) ∧
    (Maker.mk ⟨0, 1⟩ 1 1 "v4" "public").verify_token
        (engineSign
          [("admin", Value.bool true), ("aud", Value.str "audience"),
           ("exp", Value.str "2023-10-01T00:00:00+00:00"),
           ("iat", Value.str "2023-09-01T00:00:00+00:00"),
           ("iss", Value.str "issuer"), ("jti", Value.str "token_id"),
           ("name", Value.str "John Doe"),
           ("nbf", Value.str "2023-09-01T00:00:00+00:00"),
           ("sub", Value.str "1234567890")] ⟨0, 1⟩) =
      .ok ⟨[("admin", Value.bool true), ("aud", Value.str "audience"),
          ("exp", Value.str "2023-10-01T00:00:00+00:00"),
          ("iat", Value.str "2023-09-01T00:00:00+00:00"),
          ("iss", Value.str "issuer"), ("jti", Value.str "token_id"),
          ("name", Value.str "John Doe"),
          ("nbf", Value.str "2023-09-01T00:00:00+00:00"),
          ("sub", Value.str "1234567890")]⟩ ∧
    Claims.get_subject
        ⟨[("admin", Value.bool true), ("aud", Value.str "audience"),
          ("exp", Value.str "2023-10-01T00:00:00+00:00"),
          ("iat", Value.str "2023-09-01T00:00:00+00:00"),
          ("iss", Value.str "issuer"), ("jti", Value.str "token_id"),
          ("name", Value.str "John Doe"),
          ("nbf", Value.str "2023-09-01T00:00:00+00:00"),
          ("sub", Value.str "1234567890")]⟩ = some "1234567890" ∧
    Claims.get_expiration
        ⟨[("admin", Value.bool true), ("aud", Value.str "audience"),
          ("exp", Value.str "2023-10-01T00:00:00+00:00"),
          ("iat", Value.str "2023-09-01T00:00:00+00:00"),
          ("iss", Value.str "issuer"), ("jti", Value.str "token_id"),
          ("name", Value.str "John Doe"),
          ("nbf", Value.str "2023-09-01T00:00:00+00:00"),
          ("sub", Value.str "1234567890")]⟩ =
      parseRFC3339 "2023-10-01T00:00:00+00:00" ∧
    Claims.get_claim
        ⟨[("admin", Value.bool true), ("aud", Value.str "audience"),
          ("exp", Value.str "2023-10-01T00:00:00+00:00"),
          ("iat", Value.str "2023-09-01T00:00:00+00:00"),
          ("iss", Value.str "issuer"), ("jti", Value.str "token_id"),
          ("name", Value.str "John Doe"),
          ("nbf", Value.str "2023-09-01T00:00:00+00:00"),
          ("sub", Value.str "1234567890")]⟩ "admin" deserializeValue =
      some (Value.bool true) ∧
    Claims.get_claim
        ⟨[("admin", Value.bool true), ("aud", Value.str "audience"),
          ("exp", Value.str "2023-10-01T00:00:00+00:00"),
          ("iat", Value.str "2023-09-01T00:00:00+00:00"),
          ("iss", Value.str "issuer"), ("jti", Value.str "token_id"),
          ("name", Value.str "John Doe"),
          ("nbf", Value.str "2023-09-01T00:00:00+00:00"),
          ("sub", Value.str "1234567890")]⟩ "name" deserializeValue =
      some (Value.str "John Doe") := by
  have h := claim_C1 "1234567890" "issuer" "audience"
    "2023-10-01T00:00:00+00:00" "2023-09-01T00:00:00+00:00"
    "2023-09-01T00:00:00+00:00" "token_id"
    [("admin", Value.bool true), ("name", Value.str "John Doe")]
    ⟨0, 1⟩ (Maker.mk ⟨0, 1⟩ 1 1 "v4" "public")
    ⟨[("admin", Value.bool true), ("aud", Value.str "audience"),
      ("exp", Value.str "2023-10-01T00:00:00+00:00"),
      ("iat", Value.str "2023-09-01T00:00:00+00:00"),
      ("iss", Value.str "issuer"), ("jti", Value.str "token_id"),
      ("name", Value.str "John Doe"),
      ("nbf", Value.str "2023-09-01T00:00:00+00:00"),
      ("sub", Value.str "1234567890")]⟩
    rfl rfl rfl
    (by
      intro kv hkv
      rcases List.mem_cons.mp hkv with rfl | hkv
      · decide
      · rcases List.mem_cons.mp hkv with rfl | hkv
        · decide
        · exact absurd hkv (List.not_mem_nil _))
    (by decide)
    rfl
    (by
      simp +decide [addCustoms, buildReserved, Claims.new,
        Claims.with_subject, Claims.with_issuer, Claims.with_audience,
        Claims.with_expiration, Claims.with_not_before, Claims.with_issued_at,
        Claims.with_token_identifier, Claims.set_claim, Value.is_null,
        insertClaim, reserved.SUBJECT, reserved.ISSUER, reserved.AUDIENCE,
        reserved.EXPIRATION, reserved.NOT_BEFORE, reserved.ISSUED_AT,
        reserved.TOKEN_IDENTIFIER])
  exact ⟨h.1, h.2.1, h.2.2.1, h.2.2.2.2.2.2.1,
    h.2.2.2.2.2.2.2.2.2 "admin" (Value.bool true)
      (List.mem_cons_self _ _),
    h.2.2.2.2.2.2.2.2.2 "name" (Value.str "John Doe")
      (List.mem_cons_of_mem _ (List.mem_cons_self _ _))⟩

end PasetoMaker
